import Mathlib

/-!
Verification of the download orchestration engine of the
`andalus-downloader` backend against its natural-language specification.

The relevant Python code lives in `src/core/download_manager.py`
(`DownloadManager`), `src/core/download_task.py` (`DownloadTaskManager`),
`src/core/database.py` (`Database`) and `src/api/app.py`
(`ConnectionManager`).  The shallow embedding below translates the state
held by those classes (the pending-id queue, the active-runner registry,
the persisted records) into a Lean structure and each method into a pure
state-transforming function.  Asynchronous runner callbacks
(`start_download` beginning, the fetch terminating) are modelled as
separate atomic events on the registered runner, matching the
await-separated steps of the coroutines.
-/

/-- `DownloadStatus` from `src/core/models.py`: the six values of the
status enumeration. -/
inductive DownloadStatus where
  | pending
  | downloading
  | paused
  | completed
  | failed
  | cancelled
deriving DecidableEq, Repr

/-- A persisted download record, projected to the fields the claims are
about: the primary key `id`, the `status` column and the `created_at`
column (modelled as a `Nat` timestamp) of the `downloads` table in
`src/core/database.py`. -/
structure DbRecord where
  id : String
  status : DownloadStatus
  createdAt : Nat
deriving DecidableEq, Repr

/-- `Database.get_download`: SELECT by primary key returns the first (and
with unique ids, only) row with that id. -/
def dbGetDownload (db : List DbRecord) (id : String) : Option DbRecord :=
  db.find? (fun r => r.id == id)

/-- `Database.update_download` restricted to a status update: UPDATE the
status of every row whose id matches, and report whether any row was
updated (`cursor.rowcount > 0`). -/
def dbUpdateDownload (db : List DbRecord) (id : String) (st : DownloadStatus) :
    Bool × List DbRecord :=
  ((dbGetDownload db id).isSome,
   db.map (fun r => if r.id == id then { r with status := st } else r))

/-- Insertion sort step, descending on `created_at` (ties keep insertion
order, a stable realisation of SQLite's `ORDER BY created_at DESC`). -/
def insertByCreatedDesc (r : DbRecord) : List DbRecord → List DbRecord
  | [] => [r]
  | x :: xs =>
      if x.createdAt ≤ r.createdAt then r :: x :: xs
      else x :: insertByCreatedDesc r xs

/-- Rows sorted newest-first on `created_at`. -/
def sortByCreatedDesc (db : List DbRecord) : List DbRecord :=
  db.foldr insertByCreatedDesc []

/-- `Database.get_downloads(status, limit, offset)` with a status filter:
`SELECT * FROM downloads WHERE status = ? ORDER BY created_at DESC LIMIT ?
OFFSET ?`. -/
def dbGetDownloadsByStatus (db : List DbRecord) (st : DownloadStatus)
    (limit offset : Nat) : List DbRecord :=
  (((sortByCreatedDesc (db.filter (fun r => r.status == st))).drop offset).take limit)

/-- The manager state of `DownloadManager.__init__`: the concurrency
limit, the `download_queue` list of ids, the `active_downloads` registry
(a dict keyed by id, modelled as a key-unique association list of
runners), and the persisted records backing the global database. -/
structure TaskRunner where
  rid : String
  status : DownloadStatus
  cancelledFlag : Bool
  pausedFlag : Bool
deriving DecidableEq, Repr

structure EngineState where
  maxConcurrent : Nat
  downloadQueue : List String
  activeDownloads : List TaskRunner
  db : List DbRecord
deriving DecidableEq, Repr

/-- `download_id in self.active_downloads` (dict key membership). -/
def regContains (act : List TaskRunner) (id : String) : Bool :=
  act.any (fun r => r.rid == id)

/-- `self.active_downloads[download_id] = runner` (dict assignment:
replace the entry if the key exists, otherwise append). -/
def regSet (act : List TaskRunner) (r : TaskRunner) : List TaskRunner :=
  if regContains act r.rid then
    act.map (fun x => if x.rid == r.rid then r else x)
  else act ++ [r]

/-- `del self.active_downloads[download_id]` (dict deletion). -/
def regDel (act : List TaskRunner) (id : String) : List TaskRunner :=
  act.filter (fun r => !(r.rid == id))

/-- Apply a mutation to the runner bound to `id`, as the runner's own
methods do to `self`. -/
def regUpdate (act : List TaskRunner) (id : String)
    (f : TaskRunner → TaskRunner) : List TaskRunner :=
  act.map (fun x => if x.rid == id then f x else x)

/-- The persisted status of a task, as an observer reading the record
store sees it. -/
def statusOf (s : EngineState) (id : String) : Option DownloadStatus :=
  (dbGetDownload s.db id).map (fun r => r.status)

/-- `DownloadManager.add_download`: insert a fresh `Pending` record and
append the id to the queue.  A primary-key collision makes the INSERT
raise before the queue is touched, so a colliding id leaves the state
unchanged. -/
def add_download (s : EngineState) (id : String) (now : Nat) : EngineState :=
  if (dbGetDownload s.db id).isSome then s
  else
    { s with
      db := s.db ++ [{ id := id, status := .pending, createdAt := now }],
      downloadQueue := s.downloadQueue ++ [id] }

/-- `DownloadManager.pause_download`.  If a runner is bound, delegate to
`DownloadTaskManager.pause_download`, which sets its paused flag, flips
the runner's status to `PAUSED`, writes `paused` to the record store and
returns `True`.  Otherwise write `paused` to the record store directly;
success is whether the record existed.  The id is not removed from the
pending queue on either path. -/
def pause_download (s : EngineState) (id : String) : Bool × EngineState :=
  if regContains s.activeDownloads id then
    let act := regUpdate s.activeDownloads id
      (fun r => { r with pausedFlag := true, status := .paused })
    (true, { s with activeDownloads := act, db := (dbUpdateDownload s.db id .paused).2 })
  else
    ((dbUpdateDownload s.db id .paused).1, { s with db := (dbUpdateDownload s.db id .paused).2 })

/-- `DownloadManager.resume_download`.  If a runner is bound, delegate to
`DownloadTaskManager.resume_download`: clear the paused flag, set status
`DOWNLOADING` in memory and in the store, then re-run the fetch, whose
outcome `fetchOk` becomes the returned boolean (the resume path itself
writes no further status).  Otherwise write `pending` to the store and,
on success, append the id to the queue if absent. -/
def resume_download (s : EngineState) (id : String) (fetchOk : Bool) :
    Bool × EngineState :=
  if regContains s.activeDownloads id then
    let act := regUpdate s.activeDownloads id
      (fun r => { r with pausedFlag := false, status := .downloading })
    (fetchOk, { s with activeDownloads := act, db := (dbUpdateDownload s.db id .downloading).2 })
  else
    let db2 := (dbUpdateDownload s.db id .pending).2
    if (dbUpdateDownload s.db id .pending).1 then
      let q := if id ∈ s.downloadQueue then s.downloadQueue
               else s.downloadQueue ++ [id]
      (true, { s with db := db2, downloadQueue := q })
    else (false, { s with db := db2 })

/-- `DownloadManager.cancel_download`.  First remove the id from the
queue if present (`list.remove`, first occurrence).  If a runner is
bound, run `DownloadTaskManager.cancel_download` — it sets the cancelled
flag first and, when it completes without an internal error
(`runnerOk`), sets status `CANCELLED` in memory and in the store — then
delete the registry entry unconditionally and return the runner's
result.  Otherwise write `cancelled` to the store; success is whether
the record existed. -/
def cancel_download (s : EngineState) (id : String) (runnerOk : Bool) :
    Bool × EngineState :=
  let q := if id ∈ s.downloadQueue then s.downloadQueue.erase id
           else s.downloadQueue
  if regContains s.activeDownloads id then
    let act0 :=
      if runnerOk then
        regUpdate s.activeDownloads id
          (fun r => { r with cancelledFlag := true, status := .cancelled })
      else
        regUpdate s.activeDownloads id (fun r => { r with cancelledFlag := true })
    let db2 := if runnerOk then (dbUpdateDownload s.db id .cancelled).2 else s.db
    (runnerOk, { s with downloadQueue := q, activeDownloads := regDel act0 id, db := db2 })
  else
    ((dbUpdateDownload s.db id .cancelled).1,
     { s with downloadQueue := q, db := (dbUpdateDownload s.db id .cancelled).2 })

/-- `DownloadTaskManager.is_active`: the runner counts as active while
its task status is `DOWNLOADING` or `PENDING`. -/
def runnerIsActive (r : TaskRunner) : Bool :=
  r.status == .downloading || r.status == .pending

/-- `DownloadManager._start_download`: read the record; if it is missing
log and return (the popped id is dropped), otherwise build a runner
carrying the record's current status and register it.  The spawned
`start_download` coroutine is modelled separately by `runner_begin` /
`runner_finish`. -/
def start_download (s : EngineState) (id : String) : EngineState :=
  match dbGetDownload s.db id with
  | none => s
  | some rec =>
      let runner : TaskRunner :=
        { rid := id, status := rec.status, cancelledFlag := false, pausedFlag := false }
      { s with activeDownloads := regSet s.activeDownloads runner }

/-- The admission half of one `_process_queue` iteration: if the
registry is below `max_concurrent` and the queue is non-empty, pop the
head and start it. -/
def admit_phase (s : EngineState) : EngineState :=
  if s.activeDownloads.length < s.maxConcurrent then
    match s.downloadQueue with
    | [] => s
    | h :: t => start_download { s with downloadQueue := t } h
  else s

/-- The cleanup half of one `_process_queue` iteration: delete every
registered runner for which `is_active()` is false. -/
def sweep_phase (s : EngineState) : EngineState :=
  { s with activeDownloads := s.activeDownloads.filter runnerIsActive }

/-- One iteration of `DownloadManager._process_queue`: admission, then
the completed-runner sweep. -/
def process_queue_tick (s : EngineState) : EngineState :=
  sweep_phase (admit_phase s)

/-- The first awaited step of `DownloadTaskManager.start_download` after
the scheduler spawned it: the bound runner's status becomes
`DOWNLOADING` in memory and in the store. -/
def runner_begin (s : EngineState) (id : String) : EngineState :=
  if regContains s.activeDownloads id then
    { s with
      activeDownloads := regUpdate s.activeDownloads id (fun r => { r with status := .downloading }),
      db := (dbUpdateDownload s.db id .downloading).2 }
  else s

/-- The fetch terminating inside `start_download`: on success with the
cancelled flag clear the task becomes `COMPLETED`; on failure with the
flag clear it becomes `FAILED`; with the flag set nothing is written. -/
def runner_finish (s : EngineState) (id : String) (success : Bool) : EngineState :=
  match s.activeDownloads.find? (fun r => r.rid == id) with
  | none => s
  | some r =>
      if success && !r.cancelledFlag then
        { s with
          activeDownloads := regUpdate s.activeDownloads id (fun x => { x with status := .completed }),
          db := (dbUpdateDownload s.db id .completed).2 }
      else if !r.cancelledFlag then
        { s with
          activeDownloads := regUpdate s.activeDownloads id (fun x => { x with status := .failed }),
          db := (dbUpdateDownload s.db id .failed).2 }
      else s

/-- `DownloadManager._load_pending_downloads`: query the store for
`pending` rows and for `paused` rows (each with the default
`limit=50, offset=0` of `Database.get_downloads`) and append their ids,
pending first, to the queue.  Nothing else is touched: in particular no
record status is rewritten. -/
def load_pending_downloads (s : EngineState) : EngineState :=
  let pend := dbGetDownloadsByStatus s.db .pending 50 0
  let paus := dbGetDownloadsByStatus s.db .paused 50 0
  { s with downloadQueue :=
      s.downloadQueue ++ pend.map (fun r => r.id) ++ paus.map (fun r => r.id) }

/-- The engine operations a driver can interleave: enqueue, the control
calls, one scheduler iteration, the startup recovery step, and the two
asynchronous runner events. -/
inductive EngineOp where
  | add (id : String) (now : Nat)
  | pause (id : String)
  | resume (id : String) (fetchOk : Bool)
  | cancel (id : String) (runnerOk : Bool)
  | tick
  | load
  | runnerBegin (id : String)
  | runnerFinish (id : String) (success : Bool)
deriving DecidableEq, Repr

def engineStep (s : EngineState) : EngineOp → EngineState
  | .add id now => add_download s id now
  | .pause id => (pause_download s id).2
  | .resume id fOk => (resume_download s id fOk).2
  | .cancel id rOk => (cancel_download s id rOk).2
  | .tick => process_queue_tick s
  | .load => load_pending_downloads s
  | .runnerBegin id => runner_begin s id
  | .runnerFinish id ok => runner_finish s id ok

/-- The §4.2 state machine of the specification, as a decidable edge
relation.  (This definition follows the spec's words, to be compared
against the behaviour of the embedded code.) -/
def specEdge : DownloadStatus → DownloadStatus → Bool
  | .pending, .downloading => true
  | .downloading, .paused => true
  | .paused, .downloading => true
  | .downloading, .completed => true
  | .downloading, .failed => true
  | .downloading, .cancelled => true
  | .paused, .cancelled => true
  | .pending, .cancelled => true
  | _, _ => false

/-! ### Status snapshot (`DownloadManager.get_system_status`) -/

structure statusCounts where
  active : Nat
  queued : Nat
  completed : Nat
  failed : Nat
  total : Nat
deriving DecidableEq, Repr

/-- The bucket loop of `get_system_status`: one increment per row,
`downloading` → active, `pending`/`paused` → queued, `completed` and
`failed` to their own buckets, and any other status (i.e. `cancelled`)
to no bucket at all; `total` is the row count. -/
def bucketStep (c : statusCounts) (st : DownloadStatus) : statusCounts :=
  match st with
  | .downloading => { c with active := c.active + 1 }
  | .pending => { c with queued := c.queued + 1 }
  | .paused => { c with queued := c.queued + 1 }
  | .completed => { c with completed := c.completed + 1 }
  | .failed => { c with failed := c.failed + 1 }
  | .cancelled => c

def countStatuses (rows : List DownloadStatus) : statusCounts :=
  rows.foldl bucketStep
    { active := 0, queued := 0, completed := 0, failed := 0, total := rows.length }

/-- `get_system_status` at the top level: the persistence query either
returns the rows or fails; on failure the `except` branch returns the
all-zero dictionary. -/
def get_system_status (res : Except String (List DownloadStatus)) : statusCounts :=
  match res with
  | .ok rows => countStatuses rows
  | .error _ => { active := 0, queued := 0, completed := 0, failed := 0, total := 0 }

/-! ### Progress hook (`DownloadTaskManager._progress_hook`) -/

/-- The `status` field of a yt-dlp progress dict: the hook branches on
the strings `downloading` and `finished` and ignores everything else. -/
inductive HookStatus where
  | downloading
  | finished
  | other
deriving DecidableEq, Repr

/-- One progress sample as the hook reads it: `downloaded_bytes`
defaults to 0, `total_bytes` may be absent, `total_bytes_estimate`
defaults to 0, and `filename` may be absent. -/
structure HookSample where
  hstatus : HookStatus
  downloadedBytes : Nat
  totalBytes : Option Nat
  totalBytesEstimate : Nat
  filename : Option String
deriving DecidableEq, Repr

/-- `total = d.get('total_bytes') or d.get('total_bytes_estimate', 0)`:
Python `or` falls through to the estimate when `total_bytes` is absent
or zero (falsy). -/
def hookTotal (d : HookSample) : Nat :=
  match d.totalBytes with
  | some n => if n == 0 then d.totalBytesEstimate else n
  | none => d.totalBytesEstimate

/-- The task fields the hook mutates. -/
structure TaskProgress where
  progress : ℚ
  downloadedSize : Nat
  fileSize : Option Nat
  filePath : Option String
deriving DecidableEq, Repr

/-- `DownloadTaskManager._progress_hook`: on a `downloading` sample with
positive total, set `progress := downloaded / total * 100` (no clamp),
record the byte counts; on a `finished` sample set `progress := 100` and
the file path; otherwise do nothing. -/
def progress_hook (t : TaskProgress) (d : HookSample) : TaskProgress :=
  match d.hstatus with
  | .downloading =>
      let total := hookTotal d
      if 0 < total then
        { t with
          progress := (d.downloadedBytes : ℚ) / (total : ℚ) * 100,
          downloadedSize := d.downloadedBytes,
          fileSize := some total }
      else t
  | .finished => { t with progress := 100, filePath := d.filename }
  | .other => t

/-! ### Notification fan-out

`DownloadManager._notify_status_callbacks` iterates the callback list
and wraps each call in `try/except` (log and continue); the list is
never modified.  `ConnectionManager.broadcast` in `src/api/app.py`
iterates the connection list the same way but collects the failures and
then calls `disconnect` on each one, removing it from the list.  A
listener is modelled by an identifier plus whether delivery to it
succeeds. -/

structure Listener where
  lid : Nat
  ok : Bool
deriving DecidableEq, Repr

/-- The delivery loop shared by both fan-out paths: every listener is
attempted in order, an exception from one delivery is caught so the loop
continues, and the outcome per listener is recorded. -/
def deliverAll : List Listener → List (Nat × Bool)
  | [] => []
  | l :: rest => (l.lid, l.ok) :: deliverAll rest

/-- `DownloadManager._notify_status_callbacks`: deliver to every
callback; the callback list itself is left unchanged, erroring callbacks
included. -/
def notify_status_callbacks (ls : List Listener) : List (Nat × Bool) × List Listener :=
  (deliverAll ls, ls)

/-- `ConnectionManager.disconnect`: remove the connection from the list
if present (`list.remove`, first occurrence). -/
def cm_disconnect (active : List Listener) (w : Listener) : List Listener :=
  if w ∈ active then active.erase w else active

/-- `ConnectionManager.broadcast`: deliver to every connection, collect
those whose send failed, then disconnect each of them. -/
def cm_broadcast (active : List Listener) : List (Nat × Bool) × List Listener :=
  let log := deliverAll active
  let disconnected := active.filter (fun l => !l.ok)
  (log, disconnected.foldl cm_disconnect active)

/-! ### Theorems: status snapshot (C7, C10) -/

lemma bucket_foldl_total (rows : List DownloadStatus) (c : statusCounts) :
    (rows.foldl bucketStep c).total = c.total := by
  induction rows generalizing c with
  | nil => rfl
  | cons st rest ih => cases st <;> simp [bucketStep, ih]

lemma bucket_foldl_sum (rows : List DownloadStatus) (c : statusCounts) :
    (rows.foldl bucketStep c).active + (rows.foldl bucketStep c).queued +
      (rows.foldl bucketStep c).completed + (rows.foldl bucketStep c).failed +
      rows.count .cancelled =
    c.active + c.queued + c.completed + c.failed + rows.length := by
  induction rows generalizing c with
  | nil => simp
  | cons st rest ih =>
    have h := ih (bucketStep c st)
    cases st <;> simp [bucketStep, List.count_cons] at h ⊢ <;> omega

/-- C7 (corrected): the four reported buckets of `get_system_status`
omit `cancelled` records; together with the number of cancelled records
they partition the rows, so
`active + queued + completed + failed + #cancelled = total`. -/
theorem c7_partition_with_cancelled (rows : List DownloadStatus) :
    (countStatuses rows).active + (countStatuses rows).queued +
      (countStatuses rows).completed + (countStatuses rows).failed +
      rows.count .cancelled = (countStatuses rows).total := by
  unfold countStatuses
  rw [bucket_foldl_total]
  have h := bucket_foldl_sum rows
    { active := 0, queued := 0, completed := 0, failed := 0, total := rows.length }
  simpa using h

/-- C7 counterexample: a store holding a single `cancelled` record is
counted in none of the four buckets, so their sum is 0 while the
reported total is 1 — the claimed exact partition fails. -/
theorem c7_counterexample :
    (countStatuses [DownloadStatus.cancelled]).active +
      (countStatuses [DownloadStatus.cancelled]).queued +
      (countStatuses [DownloadStatus.cancelled]).completed +
      (countStatuses [DownloadStatus.cancelled]).failed = 0 ∧
    (countStatuses [DownloadStatus.cancelled]).total = 1 := by
  constructor <;> rfl

/-- C10 (confirmed): when the persistence query fails,
`get_system_status` swallows the error and returns the all-zero counts,
which are exactly what an empty store produces — callers cannot tell the
two apart. -/
theorem c10_zero_on_failure (e : String) :
    get_system_status (Except.error e) =
      { active := 0, queued := 0, completed := 0, failed := 0, total := 0 } ∧
    get_system_status (Except.ok []) =
      { active := 0, queued := 0, completed := 0, failed := 0, total := 0 } :=
  ⟨rfl, rfl⟩

/-! ### Theorems: notification fan-out (C8) -/

lemma deliverAll_eq_map (ls : List Listener) :
    deliverAll ls = ls.map (fun l => (l.lid, l.ok)) := by
  induction ls with
  | nil => rfl
  | cons l rest ih => simp [deliverAll, ih]

lemma mem_foldl_disconnect (ds : List Listener) :
    ∀ (ls : List Listener), ls.Nodup →
      ∀ x, x ∈ ds.foldl cm_disconnect ls ↔ x ∈ ls ∧ x ∉ ds := by
  induction ds with
  | nil => intro ls _ x; simp
  | cons d rest ih =>
    intro ls hnd x
    rw [List.foldl_cons]
    have hnd2 : (cm_disconnect ls d).Nodup := by
      unfold cm_disconnect
      split
      · exact hnd.erase d
      · exact hnd
    rw [ih _ hnd2 x]
    have hx : x ∈ cm_disconnect ls d ↔ x ∈ ls ∧ x ≠ d := by
      unfold cm_disconnect
      split
      · next hmem => rw [hnd.mem_erase_iff]; tauto
      · next hmem =>
        constructor
        · intro h; exact ⟨h, fun he => hmem (he ▸ h)⟩
        · intro h; exact h.1
    rw [hx]
    simp only [List.mem_cons]
    tauto

/-- C8 (amended): both fan-out paths attempt delivery to every
currently-subscribed listener, with a failing delivery isolated from the
rest; the WebSocket `ConnectionManager.broadcast` then drops exactly the
listeners whose delivery failed, while the manager's
`_notify_status_callbacks` leaves the callback list unchanged, failing
callbacks included. -/
theorem c8_fanout_isolation (ls : List Listener) (hnd : ls.Nodup) :
    (notify_status_callbacks ls).1 = ls.map (fun l => (l.lid, l.ok)) ∧
    (notify_status_callbacks ls).2 = ls ∧
    (cm_broadcast ls).1 = ls.map (fun l => (l.lid, l.ok)) ∧
    (∀ x, x ∈ (cm_broadcast ls).2 ↔ x ∈ ls ∧ x.ok = true) := by
  refine ⟨deliverAll_eq_map ls, rfl, deliverAll_eq_map ls, ?_⟩
  intro x
  show x ∈ (ls.filter (fun l => !l.ok)).foldl cm_disconnect ls ↔ _
  rw [mem_foldl_disconnect _ ls hnd x]
  simp only [List.mem_filter, Bool.not_eq_eq_eq_not, Bool.not_true]
  constructor
  · rintro ⟨hm, hn⟩
    refine ⟨hm, ?_⟩
    by_contra hok
    exact hn ⟨hm, by simpa using hok⟩
  · rintro ⟨hm, hok⟩
    exact ⟨hm, fun hc => by simp [hok] at hc⟩

/-- C8 witness: on a concrete two-listener set where the second delivery
fails, the broadcast keeps exactly the successful listener. -/
theorem c8_fanout_witness :
    ([⟨0, true⟩, ⟨1, false⟩] : List Listener).Nodup ∧
    ((⟨0, true⟩ : Listener) ∈ (cm_broadcast [⟨0, true⟩, ⟨1, false⟩]).2 ∧
      (⟨1, false⟩ : Listener) ∉ (cm_broadcast [⟨0, true⟩, ⟨1, false⟩]).2) := by
  have hnd : ([⟨0, true⟩, ⟨1, false⟩] : List Listener).Nodup := by decide
  refine ⟨hnd, ?_, ?_⟩
  · exact ((c8_fanout_isolation _ hnd).2.2.2 _).2 ⟨by simp, rfl⟩
  · intro hmem
    have h := ((c8_fanout_isolation _ hnd).2.2.2 _).1 hmem
    simpa using h.2

/-- C8 counterexample: for `DownloadManager`'s status-callback fan-out,
a listener whose delivery fails is reported as failed yet remains in the
listener set afterwards, so the claimed drop-on-failure does not happen
on this path. -/
theorem c8_counterexample :
    (notify_status_callbacks [⟨0, false⟩]).1 = [(0, false)] ∧
    (⟨0, false⟩ : Listener) ∈ (notify_status_callbacks [⟨0, false⟩]).2 := by
  constructor
  · rfl
  · simp [notify_status_callbacks]

/-! ### Theorems: progress hook (C6) -/

/-- C6 counterexample: a yt-dlp sample reporting more downloaded bytes
than the (estimated) total — 150 downloaded out of a reported total of
100 — makes `_progress_hook` store a percentage of 150: nothing clamps
the value to 100. -/
theorem c6_counterexample :
    (progress_hook ⟨0, 0, none, none⟩
        ⟨HookStatus.downloading, 150, some 100, 0, none⟩).progress = 150 ∧
    ¬ ((progress_hook ⟨0, 0, none, none⟩
        ⟨HookStatus.downloading, 150, some 100, 0, none⟩).progress ≤ 100) := by
  constructor
  · norm_num [progress_hook, hookTotal]
  · norm_num [progress_hook, hookTotal]

/-- C6 (amended): `_progress_hook` stores `downloaded / total * 100`
without clamping.  Across samples that agree on a positive total the
stored percentage is monotone in the downloaded byte count, and it stays
at most 100 exactly as long as the downloaded bytes do not exceed that
total; a sample with `downloaded > total` yields a percentage above
100. -/
theorem c6_progress_monotone_unclamped :
    (∀ (t₁ t₂ : TaskProgress) (d₁ d₂ : HookSample),
        d₁.hstatus = HookStatus.downloading → d₂.hstatus = HookStatus.downloading →
        hookTotal d₁ = hookTotal d₂ → 0 < hookTotal d₁ →
        d₁.downloadedBytes ≤ d₂.downloadedBytes →
        (progress_hook t₁ d₁).progress ≤ (progress_hook t₂ d₂).progress) ∧
    (∀ (t : TaskProgress) (d : HookSample),
        d.hstatus = HookStatus.downloading → 0 < hookTotal d →
        d.downloadedBytes ≤ hookTotal d →
        (progress_hook t d).progress ≤ 100) := by
  constructor
  · intro t₁ t₂ d₁ d₂ h1 h2 hT hpos hle
    have hpos2 : 0 < hookTotal d₂ := hT ▸ hpos
    simp only [progress_hook, h1, h2, if_pos hpos, if_pos hpos2]
    rw [← hT]
    have hTQ : (0 : ℚ) < (hookTotal d₁ : ℚ) := by exact_mod_cast hpos
    gcongr
  · intro t d h1 hpos hle
    simp only [progress_hook, h1, if_pos hpos]
    have hTQ : (0 : ℚ) < (hookTotal d : ℚ) := by exact_mod_cast hpos
    have hdiv : (d.downloadedBytes : ℚ) / (hookTotal d : ℚ) ≤ 1 := by
      rw [div_le_one hTQ]
      exact_mod_cast hle
    calc (d.downloadedBytes : ℚ) / (hookTotal d : ℚ) * 100
        ≤ 1 * 100 := by
          exact mul_le_mul_of_nonneg_right hdiv (by norm_num)
      _ = 100 := by norm_num

/-- C6 witness: two concrete samples over a fixed total of 200 bytes —
50 then 150 downloaded — give non-decreasing percentages bounded by
100. -/
theorem c6_progress_witness :
    (progress_hook ⟨0, 0, none, none⟩
        ⟨HookStatus.downloading, 50, some 200, 0, none⟩).progress ≤
      (progress_hook ⟨0, 0, none, none⟩
        ⟨HookStatus.downloading, 150, some 200, 0, none⟩).progress ∧
    (progress_hook ⟨0, 0, none, none⟩
        ⟨HookStatus.downloading, 150, some 200, 0, none⟩).progress ≤ 100 := by
  constructor
  · exact c6_progress_monotone_unclamped.1 _ _ _ _ rfl rfl rfl (by norm_num [hookTotal])
      (by norm_num)
  · exact c6_progress_monotone_unclamped.2 _ _ rfl (by norm_num [hookTotal])
      (by norm_num [hookTotal])

/-! ### Theorems: lifecycle operations (C1, C5, C9) -/

lemma dbUpdate_found (db : List DbRecord) (id : String) (st' : DownloadStatus) :
    ∀ r, dbGetDownload db id = some r →
      dbGetDownload (dbUpdateDownload db id st').2 id = some { r with status := st' } := by
  intro r h
  unfold dbGetDownload at h
  have hpx : (r.id == id) = true := by
    have hp := List.find?_some h
    simpa using hp
  have hcomp :
      ((fun x : DbRecord => x.id == id) ∘
        (fun x : DbRecord => if x.id == id then { x with status := st' } else x)) =
      fun x : DbRecord => x.id == id := by
    funext x
    by_cases hx : (x.id == id) = true
    · simp [Function.comp, hx]
    · simp [Function.comp, hx]
  unfold dbUpdateDownload dbGetDownload
  rw [List.find?_map, hcomp, h]
  have hpx2 : r.id = id := by simpa using hpx
  simp [hpx2]

lemma statusOf_some (s : EngineState) (id : String) (st : DownloadStatus)
    (h : statusOf s id = some st) : ∃ r, dbGetDownload s.db id = some r ∧ r.status = st := by
  unfold statusOf at h
  cases hfind : dbGetDownload s.db id with
  | none => rw [hfind] at h; simp at h
  | some r => rw [hfind] at h; simp at h; exact ⟨r, rfl, h⟩

/-- C1 counterexample: start from a store holding task `a` in terminal
`Completed` status, with no bound runner.  A single `pause_download`
call rewrites its persisted status to `Paused`, although
`Completed → Paused` is not an edge of the §4.2 state machine — so a
terminal task's status does change again. -/
theorem c1_counterexample :
    statusOf (pause_download ⟨3, [], [], [⟨"a", DownloadStatus.completed, 0⟩]⟩ "a").2 "a" =
      some DownloadStatus.paused ∧
    specEdge DownloadStatus.completed DownloadStatus.paused = false := by
  exact ⟨rfl, rfl⟩

/-- C1 (amended): the §4.2 edges are respected only on the happy path.
`pause`, `resume` and `cancel` on a task with no bound runner rewrite
the persisted status to `Paused`, `Pending` and `Cancelled`
unconditionally, whatever the current status — terminal statuses
(`Completed`, `Failed`, `Cancelled`) included. -/
theorem c1_unguarded_override (s : EngineState) (id : String) (st : DownloadStatus)
    (rOk fOk : Bool)
    (hreg : regContains s.activeDownloads id = false)
    (hst : statusOf s id = some st) :
    statusOf (pause_download s id).2 id = some DownloadStatus.paused ∧
    statusOf (resume_download s id fOk).2 id = some DownloadStatus.pending ∧
    statusOf (cancel_download s id rOk).2 id = some DownloadStatus.cancelled := by
  obtain ⟨r, hr, -⟩ := statusOf_some s id st hst
  refine ⟨?_, ?_, ?_⟩
  · unfold pause_download
    simp only [hreg, Bool.false_eq_true, if_false]
    unfold statusOf
    rw [dbUpdate_found s.db id .paused r hr]
    rfl
  · unfold resume_download
    simp only [hreg, Bool.false_eq_true, if_false]
    have hok : (dbUpdateDownload s.db id .pending).1 = true := by
      simp [dbUpdateDownload, hr]
    simp only [hok, if_true]
    unfold statusOf
    rw [dbUpdate_found s.db id .pending r hr]
    rfl
  · unfold cancel_download
    simp only [hreg, Bool.false_eq_true, if_false]
    unfold statusOf
    rw [dbUpdate_found s.db id .cancelled r hr]
    rfl

/-- C1 witness: a concrete store with task `a` already `Completed` and
no bound runner; `resume` flips it back to `Pending`. -/
theorem c1_unguarded_override_witness :
    regContains ([] : List TaskRunner) "a" = false ∧
    statusOf ⟨3, [], [], [⟨"a", DownloadStatus.completed, 0⟩]⟩ "a" =
      some DownloadStatus.completed ∧
    statusOf (resume_download ⟨3, [], [], [⟨"a", DownloadStatus.completed, 0⟩]⟩ "a" true).2 "a" =
      some DownloadStatus.pending :=
  ⟨rfl, rfl,
    (c1_unguarded_override ⟨3, [], [], [⟨"a", DownloadStatus.completed, 0⟩]⟩ "a"
      DownloadStatus.completed true true rfl rfl).2.1⟩

/-- C5 counterexample: task `a` is queued (not bound to a runner) in a
one-slot engine.  After `pause_download`, its status is `Paused` but its
id is still in the pending list, and the very next admission step binds
a runner to it — the scheduler does admit a `Paused` task. -/
theorem c5_counterexample :
    (pause_download ⟨1, ["a"], [], [⟨"a", DownloadStatus.pending, 0⟩]⟩ "a").2.downloadQueue =
      ["a"] ∧
    statusOf (pause_download ⟨1, ["a"], [], [⟨"a", DownloadStatus.pending, 0⟩]⟩ "a").2 "a" =
      some DownloadStatus.paused ∧
    regContains
      (admit_phase (pause_download ⟨1, ["a"], [], [⟨"a", DownloadStatus.pending, 0⟩]⟩ "a").2).activeDownloads
      "a" = true := by
  exact ⟨rfl, rfl, rfl⟩

/-- C5 (amended): `pause_download` on a task with no bound runner flips
its persisted status to `Paused` but leaves the pending list untouched,
so the id stays eligible for admission while `Paused`. -/
theorem c5_pause_keeps_queue (s : EngineState) (id : String)
    (hreg : regContains s.activeDownloads id = false) :
    (pause_download s id).2.downloadQueue = s.downloadQueue ∧
    (∀ st, statusOf s id = some st →
      statusOf (pause_download s id).2 id = some DownloadStatus.paused) := by
  constructor
  · unfold pause_download
    simp only [hreg, Bool.false_eq_true, if_false]
  · intro st hst
    obtain ⟨r, hr, -⟩ := statusOf_some s id st hst
    unfold pause_download
    simp only [hreg, Bool.false_eq_true, if_false]
    unfold statusOf
    rw [dbUpdate_found s.db id .paused r hr]
    rfl

/-- C5 witness: concrete instance of `c5_pause_keeps_queue` on a queued
pending task. -/
theorem c5_pause_keeps_queue_witness :
    regContains ([] : List TaskRunner) "b" = false ∧
    (pause_download ⟨2, ["b"], [], [⟨"b", DownloadStatus.pending, 0⟩]⟩ "b").2.downloadQueue =
      ["b"] :=
  ⟨rfl, (c5_pause_keeps_queue ⟨2, ["b"], [], [⟨"b", DownloadStatus.pending, 0⟩]⟩ "b" rfl).1⟩

lemma regContains_regDel (act : List TaskRunner) (id : String) :
    regContains (regDel act id) id = false := by
  simp only [regContains, regDel]
  rw [List.any_eq_false]
  intro x hx
  have := (List.mem_filter.mp hx).2
  simpa using this

/-- C9 (confirmed): after `cancel_download` returns — whatever boolean
the runner's own cancel reported — the id is in neither the pending
queue nor the active-runner registry: the queue entry is removed when
present and the registry entry is deleted unconditionally.  (The queue
holds each id at most once in every reachable state.) -/
theorem c9_cancel_clears (s : EngineState) (id : String) (rOk : Bool)
    (hq : s.downloadQueue.count id ≤ 1) :
    id ∉ (cancel_download s id rOk).2.downloadQueue ∧
    regContains (cancel_download s id rOk).2.activeDownloads id = false := by
  have hqmem : id ∉ (if id ∈ s.downloadQueue then s.downloadQueue.erase id
                     else s.downloadQueue) := by
    split
    · next hmem =>
      intro hmem2
      have h2 : 0 < ((s.downloadQueue.erase id).count id) :=
        List.count_pos_iff.mpr hmem2
      rw [List.count_erase_self] at h2
      have h3 : 0 < s.downloadQueue.count id := List.count_pos_iff.mpr hmem
      omega
    · next hmem => exact hmem
  by_cases hreg : regContains s.activeDownloads id = true
  · unfold cancel_download
    simp only [hreg, if_true]
    exact ⟨hqmem, regContains_regDel _ id⟩
  · have hreg2 : regContains s.activeDownloads id = false := by simpa using hreg
    unfold cancel_download
    simp only [hreg2, Bool.false_eq_true, if_false]
    exact ⟨hqmem, trivial⟩

/-- C9 witness: a one-task engine with a bound runner whose cancel
reports failure (`rOk = false`): the id still leaves both the queue and
the registry. -/
theorem c9_cancel_clears_witness :
    (["a"].count "a" ≤ 1) ∧
    ("a" ∉ (cancel_download
        ⟨2, ["a"], [⟨"a", DownloadStatus.downloading, false, false⟩],
         [⟨"a", DownloadStatus.downloading, 0⟩]⟩ "a" false).2.downloadQueue ∧
      regContains (cancel_download
        ⟨2, ["a"], [⟨"a", DownloadStatus.downloading, false, false⟩],
         [⟨"a", DownloadStatus.downloading, 0⟩]⟩ "a" false).2.activeDownloads "a" = false) :=
  ⟨by decide,
    c9_cancel_clears
      ⟨2, ["a"], [⟨"a", DownloadStatus.downloading, false, false⟩],
       [⟨"a", DownloadStatus.downloading, 0⟩]⟩ "a" false (by decide)⟩

/-! ### Theorems: bounded concurrency (C2) and admission rate (C4) -/

lemma length_regUpdate (act : List TaskRunner) (id : String) (f : TaskRunner → TaskRunner) :
    (regUpdate act id f).length = act.length := by
  simp [regUpdate]

lemma length_regSet_le (act : List TaskRunner) (r : TaskRunner) :
    (regSet act r).length ≤ act.length + 1 := by
  unfold regSet
  split
  · simp
  · simp

lemma start_download_max (s : EngineState) (id : String) :
    (start_download s id).maxConcurrent = s.maxConcurrent := by
  unfold start_download
  split <;> rfl

lemma start_download_queue (s : EngineState) (id : String) :
    (start_download s id).downloadQueue = s.downloadQueue := by
  unfold start_download
  split <;> rfl

lemma start_download_active_le (s : EngineState) (id : String) :
    (start_download s id).activeDownloads.length ≤ s.activeDownloads.length + 1 := by
  unfold start_download
  split
  · simp
  · simpa using length_regSet_le s.activeDownloads _

lemma admit_phase_max (s : EngineState) :
    (admit_phase s).maxConcurrent = s.maxConcurrent := by
  unfold admit_phase
  split
  · split
    · rfl
    · rw [start_download_max]
  · rfl

lemma admit_phase_active_le (s : EngineState)
    (h : s.activeDownloads.length ≤ s.maxConcurrent) :
    (admit_phase s).activeDownloads.length ≤ s.maxConcurrent := by
  unfold admit_phase
  split
  · next hlt =>
    split
    · exact h
    · next a t heq =>
      refine le_trans (start_download_active_le _ _) ?_
      show s.activeDownloads.length + 1 ≤ s.maxConcurrent
      omega
  · exact h

lemma engineStep_max (s : EngineState) (op : EngineOp) :
    (engineStep s op).maxConcurrent = s.maxConcurrent := by
  cases op with
  | add id now =>
    show (add_download s id now).maxConcurrent = _
    unfold add_download
    split <;> rfl
  | pause id =>
    show ((pause_download s id).2).maxConcurrent = _
    unfold pause_download
    split <;> rfl
  | resume id f =>
    show ((resume_download s id f).2).maxConcurrent = _
    unfold resume_download
    split
    · rfl
    · split <;> rfl
  | cancel id r =>
    show ((cancel_download s id r).2).maxConcurrent = _
    unfold cancel_download
    split <;> split <;> rfl
  | tick =>
    show (process_queue_tick s).maxConcurrent = _
    unfold process_queue_tick sweep_phase
    exact admit_phase_max s
  | load => rfl
  | runnerBegin id =>
    show (runner_begin s id).maxConcurrent = _
    unfold runner_begin
    split <;> rfl
  | runnerFinish id ok =>
    show (runner_finish s id ok).maxConcurrent = _
    unfold runner_finish
    split
    · rfl
    · split
      · rfl
      · split <;> rfl

lemma engineStep_active_le (s : EngineState) (op : EngineOp)
    (h : s.activeDownloads.length ≤ s.maxConcurrent) :
    (engineStep s op).activeDownloads.length ≤ s.maxConcurrent := by
  cases op with
  | add id now =>
    show (add_download s id now).activeDownloads.length ≤ _
    unfold add_download
    split
    · exact h
    · exact h
  | pause id =>
    show ((pause_download s id).2).activeDownloads.length ≤ _
    unfold pause_download
    split
    · simpa [length_regUpdate] using h
    · exact h
  | resume id f =>
    show ((resume_download s id f).2).activeDownloads.length ≤ _
    unfold resume_download
    split
    · simpa [length_regUpdate] using h
    · split
      · exact h
      · exact h
  | cancel id r =>
    show ((cancel_download s id r).2).activeDownloads.length ≤ _
    unfold cancel_download
    split
    · split
      · refine le_trans (List.length_filter_le _ _) (le_trans (le_of_eq ?_) h)
        split <;> exact length_regUpdate _ _ _
      · exact h
    · split
      · refine le_trans (List.length_filter_le _ _) (le_trans (le_of_eq ?_) h)
        split <;> exact length_regUpdate _ _ _
      · exact h
  | tick =>
    show (process_queue_tick s).activeDownloads.length ≤ _
    unfold process_queue_tick sweep_phase
    exact le_trans (List.length_filter_le _ _) (admit_phase_active_le s h)
  | load => exact h
  | runnerBegin id =>
    show (runner_begin s id).activeDownloads.length ≤ _
    unfold runner_begin
    split
    · simpa [length_regUpdate] using h
    · exact h
  | runnerFinish id ok =>
    show (runner_finish s id ok).activeDownloads.length ≤ _
    unfold runner_finish
    split
    · exact h
    · split
      · simpa [length_regUpdate] using h
      · split
        · simpa [length_regUpdate] using h
        · exact h

/-- C2 (confirmed): along every interleaving of engine operations
(enqueue, pause, resume, cancel, scheduler ticks, recovery, runner
events), a state whose active-runner registry is within the
`max_concurrent` bound only reaches states within the bound: the
scheduler admits one task only when `len(active_downloads) <
max_concurrent`, so the registry size — the number of concurrently
executing downloads — never exceeds the configured limit. -/
theorem c2_bounded_concurrency (ops : List EngineOp) (s : EngineState)
    (h : s.activeDownloads.length ≤ s.maxConcurrent) :
    (ops.foldl engineStep s).activeDownloads.length ≤
      (ops.foldl engineStep s).maxConcurrent := by
  induction ops generalizing s with
  | nil => simpa using h
  | cons op rest ih =>
    rw [List.foldl_cons]
    exact ih (engineStep s op)
      (le_trans (engineStep_active_le s op h) (le_of_eq (engineStep_max s op).symm))

/-- C2 witness: two ticks on a fresh one-slot engine with two queued
tasks keep the registry within the limit. -/
theorem c2_bounded_concurrency_witness :
    (⟨1, ["a", "b"], [],
      [⟨"a", DownloadStatus.pending, 0⟩, ⟨"b", DownloadStatus.pending, 1⟩]⟩ :
        EngineState).activeDownloads.length ≤ 1 ∧
    (([EngineOp.tick, EngineOp.tick].foldl engineStep
        ⟨1, ["a", "b"], [],
         [⟨"a", DownloadStatus.pending, 0⟩, ⟨"b", DownloadStatus.pending, 1⟩]⟩).activeDownloads.length ≤
      ([EngineOp.tick, EngineOp.tick].foldl engineStep
        ⟨1, ["a", "b"], [],
         [⟨"a", DownloadStatus.pending, 0⟩, ⟨"b", DownloadStatus.pending, 1⟩]⟩).maxConcurrent) :=
  ⟨by decide,
    c2_bounded_concurrency [EngineOp.tick, EngineOp.tick]
      ⟨1, ["a", "b"], [],
       [⟨"a", DownloadStatus.pending, 0⟩, ⟨"b", DownloadStatus.pending, 1⟩]⟩ (by decide)⟩

/-- C4 counterexample: five queued tasks with `max_concurrent = 2`.
`_process_queue` starts at most one download per iteration (an `if`,
not a loop), so immediately after one scheduler tick exactly one task —
not two — is registered, and four remain queued. -/
theorem c4_counterexample :
    (process_queue_tick
      ⟨2, ["a", "b", "c", "d", "e"], [],
       [⟨"a", DownloadStatus.pending, 0⟩, ⟨"b", DownloadStatus.pending, 1⟩,
        ⟨"c", DownloadStatus.pending, 2⟩, ⟨"d", DownloadStatus.pending, 3⟩,
        ⟨"e", DownloadStatus.pending, 4⟩]⟩).activeDownloads.length = 1 ∧
    (process_queue_tick
      ⟨2, ["a", "b", "c", "d", "e"], [],
       [⟨"a", DownloadStatus.pending, 0⟩, ⟨"b", DownloadStatus.pending, 1⟩,
        ⟨"c", DownloadStatus.pending, 2⟩, ⟨"d", DownloadStatus.pending, 3⟩,
        ⟨"e", DownloadStatus.pending, 4⟩]⟩).activeDownloads.length ≠ 2 ∧
    (process_queue_tick
      ⟨2, ["a", "b", "c", "d", "e"], [],
       [⟨"a", DownloadStatus.pending, 0⟩, ⟨"b", DownloadStatus.pending, 1⟩,
        ⟨"c", DownloadStatus.pending, 2⟩, ⟨"d", DownloadStatus.pending, 3⟩,
        ⟨"e", DownloadStatus.pending, 4⟩]⟩).downloadQueue = ["b", "c", "d", "e"] := by
  refine ⟨rfl, by decide, rfl⟩

lemma regContains_filter_regSet (act : List TaskRunner) (r : TaskRunner)
    (hact : runnerIsActive r = true) :
    regContains ((regSet act r).filter runnerIsActive) r.rid = true := by
  unfold regSet
  split
  · next hc =>
    unfold regContains at hc
    rw [List.any_eq_true] at hc
    obtain ⟨x, hx, hxr⟩ := hc
    unfold regContains
    rw [List.any_eq_true]
    have hmem : r ∈ List.map (fun y : TaskRunner => if y.rid == r.rid then r else y) act :=
      List.mem_map.mpr ⟨x, hx, by simp only [hxr, if_true]⟩
    exact ⟨r, List.mem_filter.mpr ⟨hmem, hact⟩, by simp⟩
  · unfold regContains
    rw [List.any_eq_true]
    refine ⟨r, ?_, by simp⟩
    rw [List.mem_filter]
    exact ⟨List.mem_append_right _ (by simp), hact⟩

/-- C4 (amended): admission is one task per tick, not a drain loop.
Whenever a slot is free and the pending list is non-empty, a single
scheduler iteration pops exactly the head of the list, binds a runner to
it (which survives the same tick's sweep when the record is `Pending`),
and grows the registry by at most one — so `k` free slots fill over `k`
consecutive ticks, and after a completion frees a slot the next pending
task is admitted within one tick. -/
theorem c4_one_admission_per_tick (s : EngineState) (h : String) (t : List String)
    (r : DbRecord)
    (hq : s.downloadQueue = h :: t)
    (hlt : s.activeDownloads.length < s.maxConcurrent)
    (hr : dbGetDownload s.db h = some r)
    (hst : r.status = DownloadStatus.pending) :
    (process_queue_tick s).downloadQueue = t ∧
    regContains (process_queue_tick s).activeDownloads h = true ∧
    (admit_phase s).activeDownloads.length ≤ s.activeDownloads.length + 1 := by
  have hadm : admit_phase s = start_download { s with downloadQueue := t } h := by
    unfold admit_phase
    rw [if_pos hlt, hq]
  have hr2 : dbGetDownload ({ s with downloadQueue := t } : EngineState).db h = some r := hr
  have hsd : start_download { s with downloadQueue := t } h =
      { s with
        downloadQueue := t,
        activeDownloads := regSet s.activeDownloads ⟨h, r.status, false, false⟩ } := by
    unfold start_download
    rw [hr2]
  have htick : process_queue_tick s =
      { s with
        downloadQueue := t,
        activeDownloads :=
          (regSet s.activeDownloads ⟨h, r.status, false, false⟩).filter runnerIsActive } := by
    unfold process_queue_tick sweep_phase
    rw [hadm, hsd]
  refine ⟨by rw [htick], ?_, ?_⟩
  · rw [htick]
    have hact : runnerIsActive ⟨h, r.status, false, false⟩ = true := by
      rw [hst]
      rfl
    exact regContains_filter_regSet s.activeDownloads ⟨h, r.status, false, false⟩ hact
  · rw [hadm, hsd]
    simpa using length_regSet_le s.activeDownloads ⟨h, r.status, false, false⟩

/-- C4 witness: concrete single admission from a two-task queue into an
empty two-slot registry. -/
theorem c4_one_admission_per_tick_witness :
    (⟨2, ["a", "b"], [],
      [⟨"a", DownloadStatus.pending, 0⟩, ⟨"b", DownloadStatus.pending, 1⟩]⟩ :
        EngineState).downloadQueue = "a" :: ["b"] ∧
    (process_queue_tick
      ⟨2, ["a", "b"], [],
       [⟨"a", DownloadStatus.pending, 0⟩, ⟨"b", DownloadStatus.pending, 1⟩]⟩).downloadQueue =
      ["b"] ∧
    regContains (process_queue_tick
      ⟨2, ["a", "b"], [],
       [⟨"a", DownloadStatus.pending, 0⟩, ⟨"b", DownloadStatus.pending, 1⟩]⟩).activeDownloads
      "a" = true :=
  ⟨rfl,
    (c4_one_admission_per_tick
      ⟨2, ["a", "b"], [],
       [⟨"a", DownloadStatus.pending, 0⟩, ⟨"b", DownloadStatus.pending, 1⟩]⟩
      "a" ["b"] ⟨"a", DownloadStatus.pending, 0⟩ rfl (by decide) rfl rfl).1,
    (c4_one_admission_per_tick
      ⟨2, ["a", "b"], [],
       [⟨"a", DownloadStatus.pending, 0⟩, ⟨"b", DownloadStatus.pending, 1⟩]⟩
      "a" ["b"] ⟨"a", DownloadStatus.pending, 0⟩ rfl (by decide) rfl rfl).2.1⟩

/-! ### Theorems: startup recovery (C3) -/

lemma insertByCreatedDesc_perm (r : DbRecord) (l : List DbRecord) :
    (insertByCreatedDesc r l).Perm (r :: l) := by
  induction l with
  | nil => exact List.Perm.refl _
  | cons x xs ih =>
    unfold insertByCreatedDesc
    split
    · exact List.Perm.refl _
    · exact (ih.cons x).trans (List.Perm.swap r x xs)

lemma sortByCreatedDesc_perm (l : List DbRecord) : (sortByCreatedDesc l).Perm l := by
  induction l with
  | nil => exact List.Perm.refl _
  | cons x xs ih =>
    show (insertByCreatedDesc x (sortByCreatedDesc xs)).Perm (x :: xs)
    exact (insertByCreatedDesc_perm x (sortByCreatedDesc xs)).trans (ih.cons x)

lemma getByStatus_full (db : List DbRecord) (st : DownloadStatus)
    (hlen : (db.filter (fun x => x.status == st)).length ≤ 50) :
    dbGetDownloadsByStatus db st 50 0 =
      sortByCreatedDesc (db.filter (fun x => x.status == st)) := by
  unfold dbGetDownloadsByStatus
  rw [List.drop_zero, List.take_of_length_le]
  rw [(sortByCreatedDesc_perm _).length_eq]
  exact hlen

lemma mem_getByStatus (db : List DbRecord) (st : DownloadStatus) (limit offset : Nat)
    (r : DbRecord) (h : r ∈ dbGetDownloadsByStatus db st limit offset) :
    r ∈ db ∧ r.status = st := by
  unfold dbGetDownloadsByStatus at h
  have h1 := List.take_subset _ _ h
  have h2 := List.drop_subset _ _ h1
  have h3 := (sortByCreatedDesc_perm _).mem_iff.mp h2
  have h4 := List.mem_filter.mp h3
  exact ⟨h4.1, by simpa using h4.2⟩

/-- C3 (amended): `start()`'s recovery step only reads the store: it
appends to the pending list the ids returned by the `pending`-status
query followed by those of the `paused`-status query (each query capped
at the default limit of 50 rows), and rewrites no record.  In
particular, every record found in `Active` (`downloading`) status keeps
that status and contributes nothing to the queue — a crash-interrupted
download is silently lost rather than reset to `Pending`. -/
theorem c3_recovery_queries_only (s : EngineState) :
    (load_pending_downloads s).db = s.db ∧
    (load_pending_downloads s).activeDownloads = s.activeDownloads ∧
    (∀ r : DbRecord, r ∈ s.db →
      (r.status = DownloadStatus.pending →
        (s.db.filter (fun x => x.status == DownloadStatus.pending)).length ≤ 50 →
        r.id ∈ (load_pending_downloads s).downloadQueue) ∧
      (r.status = DownloadStatus.paused →
        (s.db.filter (fun x => x.status == DownloadStatus.paused)).length ≤ 50 →
        r.id ∈ (load_pending_downloads s).downloadQueue) ∧
      (r.status = DownloadStatus.downloading →
        statusOf (load_pending_downloads s) r.id = statusOf s r.id)) ∧
    (∀ id, id ∈ (load_pending_downloads s).downloadQueue →
      id ∈ s.downloadQueue ∨
        ∃ r : DbRecord, r ∈ s.db ∧ r.id = id ∧
          (r.status = DownloadStatus.pending ∨ r.status = DownloadStatus.paused)) := by
  refine ⟨rfl, rfl, ?_, ?_⟩
  · intro r hr
    refine ⟨?_, ?_, fun _ => rfl⟩
    · intro hst hlen
      have hmemf : r ∈ s.db.filter (fun x => x.status == DownloadStatus.pending) :=
        List.mem_filter.mpr ⟨hr, by simp [hst]⟩
      have hmems : r ∈ dbGetDownloadsByStatus s.db .pending 50 0 := by
        rw [getByStatus_full _ _ hlen]
        exact (sortByCreatedDesc_perm _).mem_iff.mpr hmemf
      show r.id ∈ (load_pending_downloads s).downloadQueue
      simp only [load_pending_downloads, List.mem_append, List.mem_map]
      exact Or.inl (Or.inr ⟨r, hmems, rfl⟩)
    · intro hst hlen
      have hmemf : r ∈ s.db.filter (fun x => x.status == DownloadStatus.paused) :=
        List.mem_filter.mpr ⟨hr, by simp [hst]⟩
      have hmems : r ∈ dbGetDownloadsByStatus s.db .paused 50 0 := by
        rw [getByStatus_full _ _ hlen]
        exact (sortByCreatedDesc_perm _).mem_iff.mpr hmemf
      show r.id ∈ (load_pending_downloads s).downloadQueue
      simp only [load_pending_downloads, List.mem_append, List.mem_map]
      exact Or.inr ⟨r, hmems, rfl⟩
  · intro id hid
    simp only [load_pending_downloads, List.mem_append, List.mem_map] at hid
    rcases hid with (hq | ⟨r, hmem, rfl⟩) | ⟨r, hmem, rfl⟩
    · exact Or.inl hq
    · obtain ⟨hdb, hst⟩ := mem_getByStatus _ _ _ _ _ hmem
      exact Or.inr ⟨r, hdb, rfl, Or.inl hst⟩
    · obtain ⟨hdb, hst⟩ := mem_getByStatus _ _ _ _ _ hmem
      exact Or.inr ⟨r, hdb, rfl, Or.inr hst⟩

/-- C3 counterexample: a store holding a single record in `Active`
(`downloading`) status — the crash-mid-download case.  Recovery leaves
the queue empty and the record still `downloading`: it is neither reset
to `Pending` nor re-enqueued. -/
theorem c3_counterexample :
    (load_pending_downloads ⟨3, [], [], [⟨"x", DownloadStatus.downloading, 0⟩]⟩).downloadQueue =
      [] ∧
    statusOf (load_pending_downloads ⟨3, [], [], [⟨"x", DownloadStatus.downloading, 0⟩]⟩) "x" =
      some DownloadStatus.downloading :=
  ⟨rfl, rfl⟩

/-- C3 witness: with one pending and one crashed (`downloading`) record,
the pending id is re-enqueued by recovery. -/
theorem c3_recovery_queries_only_witness :
    (⟨"p1", DownloadStatus.pending, 0⟩ : DbRecord) ∈
      ([⟨"p1", DownloadStatus.pending, 0⟩, ⟨"x", DownloadStatus.downloading, 1⟩] :
        List DbRecord) ∧
    "p1" ∈ (load_pending_downloads
      ⟨3, [], [],
       [⟨"p1", DownloadStatus.pending, 0⟩, ⟨"x", DownloadStatus.downloading, 1⟩]⟩).downloadQueue :=
  ⟨by decide,
    ((c3_recovery_queries_only
        ⟨3, [], [],
         [⟨"p1", DownloadStatus.pending, 0⟩, ⟨"x", DownloadStatus.downloading, 1⟩]⟩).2.2.1
      ⟨"p1", DownloadStatus.pending, 0⟩ (by decide)).1 rfl (by decide)⟩
